import Mathlib

/-!
Verification development for the house/conduct points dashboard (`app.py`).

The Python program is a single-pass tabular pipeline over an uploaded
rewards CSV: load and repair headers, normalise field values, split rows
into "house" vs "conduct" subsets by keyword matching on the `Reward`
column, aggregate per teacher, left-merge with a staff roster, and append
per-week rows to a cumulative tracker whose per-staff statistics are then
recomputed.

The shallow embedding below models:
  * pandas string normalisation (`.str.strip`, `.str.upper`, `.str.lower`)
    on ASCII text; `strip` removes the same whitespace characters Python's
    `str.strip` removes, and case conversion covers the basic latin
    letters (the program's data — staff initials, reward labels, house
    codes — is ASCII);
  * `pd.to_numeric(..., errors="coerce").fillna(0).astype(int)` as a
    total `String → Int` parser (sign, digits, optional fractional part
    which `astype(int)` truncates toward zero; scientific notation and
    other exotic numeric spellings accepted by pandas are outside the
    data's vocabulary and are not modelled);
  * `groupby` / `merge` as list transforms.  pandas sorts group keys and
    outer-merge keys lexicographically; the embedding keeps keys in first
    occurrence order, which changes only row order and no claim here is
    about row order.  Fallible label-keyed frame operations — list-label
    column selection and merge-key lookup, which raise `KeyError` in
    pandas — return `Except`;
  * float arithmetic of the tracker (`mean`, `round(2)`) as exact
    rational arithmetic with IEEE half-to-even rounding.
-/

/-! ### Characters: whitespace, case conversion, letters -/

/-- Lower/upper pairs of the basic latin alphabet: the case conversions
performed by `.str.upper()` / `.str.lower()` on the program's data. -/
def caseTable : List (Char × Char) :=
  [('a','A'), ('b','B'), ('c','C'), ('d','D'), ('e','E'), ('f','F'), ('g','G'),
   ('h','H'), ('i','I'), ('j','J'), ('k','K'), ('l','L'), ('m','M'), ('n','N'),
   ('o','O'), ('p','P'), ('q','Q'), ('r','R'), ('s','S'), ('t','T'), ('u','U'),
   ('v','V'), ('w','W'), ('x','X'), ('y','Y'), ('z','Z')]

/-- Uppercase a character (`str.upper` on ASCII). -/
def upc (c : Char) : Char :=
  ((caseTable.find? (fun p => p.1 == c)).map (fun p => p.2)).getD c

/-- Lowercase a character (`str.lower` on ASCII). -/
def lowc (c : Char) : Char :=
  ((caseTable.find? (fun p => p.2 == c)).map (fun p => p.1)).getD c

/-- The whitespace characters removed by Python's `str.strip()`. -/
def wsChar (c : Char) : Bool :=
  c == ' ' || c == '\t' || c == '\n' || c == '\r' || c == '\x0b' || c == '\x0c'

/-- ASCII letter test, mirroring the regex class `[A-Za-z]` used for the
house-code extraction. -/
def isAsciiAlpha (c : Char) : Bool :=
  ('A' ≤ c && c ≤ 'Z') || ('a' ≤ c && c ≤ 'z')

/-! ### Strings: strip / upper / lower -/

/-- `str.strip()` on a character list: drop leading and trailing whitespace. -/
def stripL (l : List Char) : List Char :=
  (((l.dropWhile wsChar).reverse.dropWhile wsChar)).reverse

/-- `str.strip()` on a string. -/
def stripS (s : String) : String :=
  ⟨stripL s.data⟩

/-- `str.upper()` on a string. -/
def upperS (s : String) : String :=
  ⟨s.data.map upc⟩

/-- `str.lower()` on a string. -/
def lowerS (s : String) : String :=
  ⟨s.data.map lowc⟩

/-- `.str.upper().str.strip()` — the teacher-initials normalisation used at
several points of the program (rewards `Teacher` column, staff `Initials`,
and the staff-aggregate `Teacher` column). -/
def upStrip (s : String) : String :=
  stripS (upperS s)

/-! ### Keep-first deduplication (`drop_duplicates` / `.unique()`) -/

/-- `drop_duplicates` / `Series.unique`: keep the first occurrence of each
value, in order of first appearance. -/
def dedupF : List String → List String
  | [] => []
  | a :: l => a :: (dedupF l).filter (fun b => b != a)

/-! ### Numeric coercion of the `Points` column

`pd.to_numeric(df["Points"], errors="coerce").fillna(0).astype(int)`
(line 124 of `app.py`): an optionally signed digit string, with an
optional fractional part that `astype(int)` truncates toward zero;
anything else coerces to `NaN` and `fillna(0)` turns it into `0`. -/

/-- Value of a digit string (most significant first). -/
def digitsVal (l : List Char) : Nat :=
  l.foldl (fun a c => a * 10 + (c.toNat - 48)) 0

/-- Split an optional leading sign off a numeral. -/
def signSplit (l : List Char) : Int × List Char :=
  match l with
  | '-' :: r => (-1, r)
  | '+' :: r => (1, r)
  | _ => (1, l)

/-- Whether an unsigned body is a numeral `pd.to_numeric` accepts: digits,
optionally followed by `.` and further digits, at least one digit in
total. -/
def numOk (body : List Char) : Bool :=
  match body.dropWhile Char.isDigit with
  | [] => !(body.takeWhile Char.isDigit).isEmpty
  | '.' :: fr => fr.all Char.isDigit && (!(body.takeWhile Char.isDigit).isEmpty || !fr.isEmpty)
  | _ => false

/-- The numeric parse of `pd.to_numeric` followed by `astype(int)`:
`some` of the truncated integer value on a numeric string (`astype(int)`
truncates toward zero, so only the integer digits contribute), `none` when
the string does not parse (pandas would produce `NaN`). -/
def parseNumTrunc (l : List Char) : Option Int :=
  if numOk (signSplit l).2 then
    some ((signSplit l).1 * (digitsVal ((signSplit l).2.takeWhile Char.isDigit) : Int))
  else none

/-- The full `Points` normalisation: the value was already stripped by the
`applymap`-strip of line 117, then `to_numeric(...).fillna(0).astype(int)`. -/
def normPoints (s : String) : Int :=
  (parseNumTrunc (stripS s).data).getD 0

/-- Spec-side definition (for claim C6): the exact integer value of an
optionally signed, all-digit string, after stripping whitespace. -/
def intLitVal (s : String) : Option Int :=
  if !((signSplit (stripS s).data).2).isEmpty
      && ((signSplit (stripS s).data).2).all Char.isDigit then
    some ((signSplit (stripS s).data).1 * (digitsVal (signSplit (stripS s).data).2 : Int))
  else none

/-! ### House normalisation (lines 126–128 of `app.py`)

`HouseRaw` is the stripped raw text (stripped once by the `applymap` of
line 117 and again at line 126); `HouseCode` is the first `[A-Za-z]`
character of the uppercased raw text (`.str.upper().str.extract(r'([A-Za-z])')`),
or `""` when there is none; `House` maps the code through `HOUSE_MAPPING`
and falls back to `HouseRaw` for codes not in the mapping. -/

/-- `HOUSE_MAPPING = {"B": "Brunel", "L": "Liddell", "D": "Dickens",
"W": "Wilberforce"}`. -/
def HOUSE_MAPPING : List (Char × String) :=
  [('B', "Brunel"), ('L', "Liddell"), ('D', "Dickens"), ('W', "Wilberforce")]

/-- Dictionary lookup in `HOUSE_MAPPING`. -/
def houseLookup (c : Char) : Option String :=
  (HOUSE_MAPPING.find? (fun p => p.1 == c)).map (fun p => p.2)

/-- First `[A-Za-z]` character of the uppercased text — the `HouseCode`
of line 127 (`None` models the regex extracting nothing). -/
def houseCodeOf (s : String) : Option Char :=
  (s.data.map upc).find? isAsciiAlpha

/-- Normalised `House` field from the raw house cell (lines 117, 126–128). -/
def normHouse (raw : String) : String :=
  match houseCodeOf (stripS (stripS raw)) with
  | some c => (houseLookup c).getD (stripS (stripS raw))
  | none => stripS (stripS raw)

/-! ### Row normalisation (`read_rewards_csv`, lines 117–134)

A `RawRow` carries the raw cell text of the five columns the claims are
about; the remaining columns of the twelve-column schema (`Form`, `Year`,
`Date`, …) are normalised the same way as `Pupil Name` and play no role in
any claim, so they are not carried. -/

structure RawRow where
  house : String
  reward : String
  category : String
  points : String
  teacher : String
deriving Repr, DecidableEq

/-- A normalised event record (one row of the `rewards` dataframe). -/
structure Event where
  house : String
  reward : String
  category : String
  points : Int
  teacher : String
deriving Repr, DecidableEq

/-- Value normalisation of one row: the `applymap` strip of line 117
followed by the per-column operations of lines 119–133. -/
def normalizeRow (r : RawRow) : Event :=
  { house := normHouse r.house
  , reward := stripS (lowerS (stripS r.reward))
  , category := stripS (lowerS (stripS r.category))
  , points := normPoints r.points
  , teacher := stripS (upperS (stripS r.teacher)) }

/-- The normalised `rewards` dataframe of an uploaded file. -/
def rewardsOf (rows : List RawRow) : List Event :=
  rows.map normalizeRow

/-! ### Categorizer (lines 253–255)

`house_df = rewards[rewards["Reward"].str.contains("house", case=False, na=False)]`
`conduct_df = rewards[rewards["Reward"].str.contains("conduct", case=False, na=False)]` -/

/-- Whether `pat` occurs as a contiguous substring of the second list. -/
def containsSub (pat : List Char) : List Char → Bool
  | [] => pat.isEmpty
  | c :: rest => pat.isPrefixOf (c :: rest) || containsSub pat rest

/-- Case-insensitive substring containment (`str.contains(pat, case=False)`). -/
def containsCI (s pat : String) : Bool :=
  containsSub (pat.data.map lowc) (s.data.map lowc)

/-- Membership test for the house subset. -/
def isHouse (e : Event) : Bool :=
  containsCI e.reward "house"

/-- Membership test for the conduct subset. -/
def isConduct (e : Event) : Bool :=
  containsCI e.reward "conduct"

/-- The house subset of an uploaded file's events. -/
def houseDF (rows : List RawRow) : List Event :=
  (rewardsOf rows).filter isHouse

/-- The conduct subset of an uploaded file's events. -/
def conductDF (rows : List RawRow) : List Event :=
  (rewardsOf rows).filter isConduct

/-! ### Per-staff aggregation (lines 259–285) -/

/-- Sum of `Points` over the events of one teacher
(`groupby("Teacher")["Points"].sum()` for that key). -/
def pointsSumFor (l : List Event) (t : String) : Int :=
  ((l.filter (fun e => e.teacher == t)).map (fun e => e.points)).sum

/-- Number of events of one teacher
(`groupby("Teacher")["Points"].count()` for that key). -/
def eventCountFor (l : List Event) (t : String) : Int :=
  ((l.filter (fun e => e.teacher == t)).length : Int)

/-- `staff_house` (lines 261–264): one `(Teacher, House Points This Week)`
pair per distinct teacher of the house subset.  (pandas emits group keys
sorted; key order is irrelevant to every claim, so first-occurrence order
is kept.)  On an empty house subset this is the empty frame. -/
def staffHouse (rows : List RawRow) : List (String × Int) :=
  (dedupF ((houseDF rows).map (fun e => e.teacher))).map
    (fun t => (t, pointsSumFor (houseDF rows) t))

/-- `staff_conduct` (lines 267–270): one `(Teacher, Conduct Points This
Week)` pair per distinct teacher of the conduct subset; the measure is an
event count. -/
def staffConduct (rows : List RawRow) : List (String × Int) :=
  (dedupF ((conductDF rows).map (fun e => e.teacher))).map
    (fun t => (t, eventCountFor (conductDF rows) t))

/-- One row of the per-staff aggregate / summary. -/
structure SRow where
  teacher : String
  house : Int
  conduct : Int
deriving Repr, DecidableEq

/-- `lookup` of the measure attached to a key in a keyed pair list. -/
def lookupV (l : List (String × Int)) (t : String) : Option Int :=
  (l.find? (fun p => p.1 == t)).map (fun p => p.2)

/-- Whether a key occurs in a keyed pair list. -/
def keyElem (l : List (String × Int)) (t : String) : Bool :=
  l.any (fun p => p.1 == t)

/-- `staff_agg` before line 285: the outer merge of `staff_house` and
`staff_conduct` on `Teacher`, with `fillna(0)` on both measures
(line 273).  Keys present on both sides pair their measures; keys of only
one side get `0` for the other measure. -/
def staffAggPre (rows : List RawRow) : List SRow :=
  (staffHouse rows).map
    (fun p => { teacher := p.1, house := p.2,
                conduct := (lookupV (staffConduct rows) p.1).getD 0 })
  ++ ((staffConduct rows).filter (fun p => !(keyElem (staffHouse rows) p.1))).map
    (fun p => { teacher := p.1, house := 0, conduct := p.2 })

/-- `staff_agg` (line 285): `Teacher` re-normalised with
`.str.upper().str.strip()`. -/
def staffAgg (rows : List RawRow) : List SRow :=
  (staffAggPre rows).map (fun r => { r with teacher := upStrip r.teacher })

/-! ### Staff roster (`read_staff_file` and lines 226–228) -/

/-- The normalised roster `Initials` column: the `applymap` strip of
line 50, `strip().upper()` of line 78, removal of blank initials
(lines 82–83), `.str.upper().str.strip()` of line 84, the same again at
line 227, and `drop_duplicates` at line 228. -/
def rosterKeys (raws : List String) : List String :=
  dedupF
    ((((raws.map (fun s => upperS (stripS (stripS s)))).filter
        (fun s => s != "")).map upStrip).map upStrip)

/-! ### The master frame and the final merge (lines 291–303)

This block of `app.py` manipulates dataframe columns by label, and its
label bookkeeping is faulty on both branches, so the per-staff summary
`staff_full` is never actually produced:

  * non-empty roster: line 298 renames `Initials`→`Teacher` and
    `Dep`→`Dept`, then line 300 selects `master[["Teacher","FullName","Dep"]]`
    — but `Dep` no longer exists, and pandas list-label selection with a
    missing label raises an uncaught `KeyError`;
  * empty roster: line 294 builds `master` with an `Initials` column, and
    the merge of line 303 (`left_on="Teacher"`) raises an uncaught
    `KeyError` because the left frame has no `Teacher` column.

The frames are therefore modelled at the column level — a list of
`(label, values)` pairs — and the fallible operations (list-label
selection, merge-key lookup) return `Except`. -/

/-- pandas `rename(columns=m)`: labels in the mapping are replaced, all
other labels kept; values untouched. -/
def renameFrameCols (m : List (String × String))
    (frame : List (String × List String)) : List (String × List String) :=
  frame.map (fun c =>
    (((m.find? (fun p => p.1 == c.1)).map (fun p => p.2)).getD c.1, c.2))

/-- The normalised staff frame `staff_df` with its five columns
(line 81), `Initials` normalised and deduplicated by lines 226–228.
First names, surnames and departments are mentioned by no claim and are
carried as blanks. -/
def staffFrame (roster : List String) : List (String × List String) :=
  [("Initials", rosterKeys roster),
   ("FirstName", (rosterKeys roster).map (fun _ => "")),
   ("Surname", (rosterKeys roster).map (fun _ => "")),
   ("FullName", (rosterKeys roster).map (fun _ => "")),
   ("Dep", (rosterKeys roster).map (fun _ => ""))]

/-- pandas `df[labels]` list-label selection (line 300): every requested
label must exist, otherwise `KeyError`. -/
def selectFrameCols (labels : List String)
    (frame : List (String × List String)) :
    Except String (List (String × List String)) :=
  if labels.all (fun l => frame.any (fun c => c.1 == l)) then
    .ok (labels.map (fun l =>
      (l, ((frame.find? (fun c => c.1 == l)).map (fun c => c.2)).getD [])))
  else .error "KeyError: label not in index"

/-- The `master` frame of lines 291–300.  Empty roster: a fresh frame
whose key column is named `Initials`, valued with the distinct `staff_agg`
teachers, `FullName` copied from it and `Dep` blank (lines 294–296).
Non-empty roster: rename `Initials`→`Teacher`, `Dep`→`Dept` (line 298),
the identity rename of `FullName` (line 299), then select
`["Teacher","FullName","Dep"]` and rename `Dep`→`Dept` (line 300); the
selection asks for the just-renamed `Dep` and fails. -/
def masterFrame (roster : List String) (rows : List RawRow) :
    Except String (List (String × List String)) :=
  if rosterKeys roster = [] then
    .ok [("Initials", dedupF ((staffAgg rows).map (fun r => r.teacher))),
         ("FullName", dedupF ((staffAgg rows).map (fun r => r.teacher))),
         ("Dep", (dedupF ((staffAgg rows).map (fun r => r.teacher))).map (fun _ => ""))]
  else
    (selectFrameCols ["Teacher", "FullName", "Dep"]
        (renameFrameCols [("FullName", "FullName")]
          (renameFrameCols [("Initials", "Teacher"), ("Dep", "Dept")]
            (staffFrame roster)))).map
      (renameFrameCols [("Dep", "Dept")])

/-- The merge of line 303: `pd.merge(master, staff_agg, left_on="Teacher",
right_on="Teacher", how="left").fillna(0)`.  pandas raises
`KeyError: Teacher` when the left frame has no `Teacher` column; when it
does, each left key joins all its matching aggregate rows, or one zero
row. -/
def mergeLeftOnTeacher (master : List (String × List String))
    (agg : List SRow) : Except String (List SRow) :=
  match master.find? (fun c => c.1 == "Teacher") with
  | none => .error "KeyError: Teacher"
  | some c =>
    .ok (c.2.flatMap (fun t =>
      let ms := agg.filter (fun r => r.teacher == t)
      if ms.isEmpty then [{ teacher := t, house := 0, conduct := 0 }] else ms))

/-- Lines 291–303 as a whole: the attempted computation of the
`staff_full` per-staff summary. -/
def staffFullE (roster : List String) (rows : List RawRow) :
    Except String (List SRow) :=
  match masterFrame roster rows with
  | .error e => .error e
  | .ok m => mergeLeftOnTeacher m (staffAgg rows)

/-! ### Loader header alignment (`read_rewards_csv`, lines 100–114) -/

/-- The expected canonical column names. -/
def EXPECTED_REWARDS_COLS : List String :=
  ["Pupil Name", "House", "Form", "Year", "Reward", "Category", "Points",
   "Date", "Reward Description", "Teacher", "Dep", "Subject"]

/-- The three header-repair strategies of `read_rewards_csv`. -/
inductive HeaderStrategy where
  | exact
  | positional
  | pad
deriving Repr, DecidableEq

/-- Which strategy `read_rewards_csv` applies to a (stripped) header list:
name selection when the incoming names are a superset of the expected
names (line 101), positional renaming when the incoming column count is at
least the expected count (line 106, `len(cols) >= len(EXPECTED_REWARDS_COLS)`),
and otherwise padding of the missing expected names as empty columns
(lines 110–114). -/
def chooseHeaderStrategy (cols : List String) : HeaderStrategy :=
  if EXPECTED_REWARDS_COLS.all (fun c => cols.contains c) then .exact
  else if EXPECTED_REWARDS_COLS.length ≤ cols.length then .positional
  else .pad

/-- Where each expected column's data comes from after header repair. -/
inductive ColSource where
  | named (i : Nat)
  | positional (i : Nat)
  | empty
deriving Repr, DecidableEq

/-- The column plan produced by the loader: for every expected name, the
incoming column it is read from — by name, by position, or synthesized as
an empty column (`df[col] = ""`). -/
def colPlan (cols : List String) : List (String × ColSource) :=
  match chooseHeaderStrategy cols with
  | .exact => EXPECTED_REWARDS_COLS.map (fun c => (c, ColSource.named (cols.indexOf c)))
  | .positional => EXPECTED_REWARDS_COLS.enum.map (fun p => (p.2, ColSource.positional p.1))
  | .pad => EXPECTED_REWARDS_COLS.map (fun c =>
      if cols.contains c then (c, ColSource.named (cols.indexOf c))
      else (c, ColSource.empty))

/-! ### Cumulative tracker (`update_cumulative_tracker`, lines 165–198)

`staff_stats` groups the full log by `Teacher` and computes the sum of
`House Points This Week`, the number of distinct `Week` labels
(`nunique`), the mean of `House Points This Week` over the group's rows,
rounded to two decimals, and a status that is `"Positive"` exactly when
the rounded mean is at least `DEFAULT_WEEKLY_TARGET` — the module constant
`15`, not the sidebar-configured `weekly_target`.  Float arithmetic is
modelled as exact rational arithmetic; `round(2)` uses numpy's
half-to-even rounding. -/

def DEFAULT_WEEKLY_TARGET : ℚ := 15

/-- One row of the cumulative log. -/
structure LogRow where
  teacher : String
  hp : ℚ
  week : String
deriving Repr, DecidableEq

/-- Round to the nearest integer, ties to even (numpy / IEEE rounding). -/
def roundHalfEven (q : ℚ) : ℤ :=
  if q - ⌊q⌋ < 1/2 then ⌊q⌋
  else if 1/2 < q - ⌊q⌋ then ⌊q⌋ + 1
  else if ⌊q⌋ % 2 = 0 then ⌊q⌋ else ⌊q⌋ + 1

/-- `Series.round(2)`. -/
def round2 (q : ℚ) : ℚ :=
  (roundHalfEven (q * 100) : ℚ) / 100

/-- One row of the recomputed `staff_stats`. -/
structure StatRow where
  teacher : String
  total : ℚ
  weeks : ℕ
  avg : ℚ
  status : String
deriving Repr, DecidableEq

/-- The group of one teacher's log rows. -/
def logGroup (log : List LogRow) (t : String) : List LogRow :=
  log.filter (fun r => r.teacher == t)

/-- The rounded mean of `House Points This Week` over one teacher's log
rows (pandas `mean` followed by `round(2)`). -/
def avgFor (log : List LogRow) (t : String) : ℚ :=
  round2 ((((logGroup log t).map (fun r => r.hp)).sum) / ((logGroup log t).length : ℚ))

/-- The `staff_stats` row of one teacher over the full log. -/
def statFor (log : List LogRow) (t : String) : StatRow :=
  { teacher := t
  , total := ((logGroup log t).map (fun r => r.hp)).sum
  , weeks := (dedupF ((logGroup log t).map (fun r => r.week))).length
  , avg := avgFor log t
  , status := if DEFAULT_WEEKLY_TARGET ≤ avgFor log t then "Positive" else "Negative" }

/-- `staff_stats` (lines 191–197): one row per distinct teacher of the log. -/
def staffStats (log : List LogRow) : List StatRow :=
  (dedupF (log.map (fun r => r.teacher))).map (statFor log)

/-- `update_cumulative_tracker`: append this run's rows to the log
(`pd.concat`, line 186) and recompute `staff_stats` over the result. -/
def updateCumulativeTracker (existing newRows : List LogRow) :
    List LogRow × List StatRow :=
  (existing ++ newRows, staffStats (existing ++ newRows))

/-! ### Spec-side predicates used by the claims -/

/-- Claim C4's primary-rule predicate for the house subset: the
category/reward text contains `"house"` or `"reward"` case-insensitively. -/
def claimHousePred (e : Event) : Bool :=
  containsCI e.reward "house" || containsCI e.reward "reward"

/-- Claim C4's primary-rule predicate for the conduct subset: the
category/reward text contains `"conduct"`, `"behaviour"` or `"behavior"`. -/
def claimConductPred (e : Event) : Bool :=
  containsCI e.reward "conduct" || containsCI e.reward "behaviour" ||
    containsCI e.reward "behavior"

/-- Claim C7's expectation for an unmapped house value: the raw house text
uppercased. -/
def claimHouseFallback (raw : String) : String :=
  upperS (stripS raw)

/-! ### Concrete inputs used by counterexamples and witnesses -/

/-- A house-point event awarded by a teacher (`xx`) who is not on the
roster. -/
def exHouseRow : RawRow :=
  { house := "B", reward := "House Point", category := "hp", points := "5",
    teacher := "xx" }

/-- A one-event uploaded file. -/
def exRows : List RawRow := [exHouseRow]

/-- A one-entry staff roster that does not contain `XX`. -/
def exRoster : List String := ["AA"]

/-- An event whose reward text contains the keyword `reward` but not
`house`. -/
def c4Row : RawRow :=
  { house := "L", reward := "Reward", category := "general", points := "3",
    teacher := "ab" }

/-- A positive-points event whose reward text contains no classification
keyword at all. -/
def c5Row : RawRow :=
  { house := "D", reward := "Misc", category := "other", points := "5",
    teacher := "cd" }

/-- A one-row cumulative log: teacher `AB` reported 10 house points in one
week. -/
def c8Log : List LogRow := [{ teacher := "AB", hp := 10, week := "w1" }]

/-- Thirteen incoming column names, none of them an expected name. -/
def c9Cols : List String :=
  ["c1", "c2", "c3", "c4", "c5", "c6", "c7", "c8", "c9", "c10", "c11", "c12",
   "c13"]

/-! ### Lemmas about the character/string primitives -/

theorem caseTable_snd_not_key : ∀ p ∈ caseTable,
    caseTable.find? (fun q => q.1 == p.2) = none := by
  decide

theorem caseTable_props : ∀ p ∈ caseTable,
    wsChar p.1 = false ∧ wsChar p.2 = false ∧
    isAsciiAlpha p.1 = true ∧ isAsciiAlpha p.2 = true := by
  decide

theorem upc_upc (c : Char) : upc (upc c) = upc c := by
  unfold upc
  cases hf : caseTable.find? (fun p => p.1 == c) with
  | none => simp [hf]
  | some p =>
    have hp : p ∈ caseTable := List.mem_of_find?_eq_some hf
    simp [caseTable_snd_not_key p hp]

theorem ws_upc (c : Char) : wsChar (upc c) = wsChar c := by
  unfold upc
  cases hf : caseTable.find? (fun p => p.1 == c) with
  | none => simp
  | some p =>
    have hp : p ∈ caseTable := List.mem_of_find?_eq_some hf
    have hc : p.1 = c := by simpa using List.find?_some hf
    simp only [Option.map_some', Option.getD_some]
    rw [(caseTable_props p hp).2.1, ← hc, (caseTable_props p hp).1]

theorem isA_upc (c : Char) : isAsciiAlpha (upc c) = isAsciiAlpha c := by
  unfold upc
  cases hf : caseTable.find? (fun p => p.1 == c) with
  | none => simp
  | some p =>
    have hp : p ∈ caseTable := List.mem_of_find?_eq_some hf
    have hc : p.1 = c := by simpa using List.find?_some hf
    simp only [Option.map_some', Option.getD_some]
    rw [(caseTable_props p hp).2.2.2, ← hc, (caseTable_props p hp).2.2.1]

theorem dropWhile_map_upc (l : List Char) :
    (l.map upc).dropWhile wsChar = (l.dropWhile wsChar).map upc := by
  induction l with
  | nil => rfl
  | cons a t ih =>
    simp only [List.map_cons, List.dropWhile_cons, ws_upc]
    split <;> simp_all

theorem stripL_map_upc (l : List Char) :
    stripL (l.map upc) = (stripL l).map upc := by
  unfold stripL
  rw [dropWhile_map_upc, ← List.map_reverse, dropWhile_map_upc, ← List.map_reverse]

theorem dropWhile_dropWhile (p : Char → Bool) (l : List Char) :
    (l.dropWhile p).dropWhile p = l.dropWhile p := by
  induction l with
  | nil => rfl
  | cons a t ih =>
    by_cases h : p a
    · simp [List.dropWhile_cons, h, ih]
    · simp [List.dropWhile_cons, h]

theorem head_dropWhile_false (p : Char → Bool) (l : List Char) (c : Char)
    (h : (l.dropWhile p).head? = some c) : p c = false := by
  induction l with
  | nil => simp [List.dropWhile] at h
  | cons a t ih =>
    rw [List.dropWhile_cons] at h
    split at h
    · exact ih h
    · simp_all

theorem dropWhile_of_head_false (p : Char → Bool) (l : List Char) (c : Char)
    (hh : l.head? = some c) (hc : p c = false) : l.dropWhile p = l := by
  cases l with
  | nil => rfl
  | cons a t =>
    simp only [List.head?_cons, Option.some.injEq] at hh
    subst hh
    simp [List.dropWhile_cons, hc]

theorem getLast?_dropWhile (p : Char → Bool) (l : List Char)
    (h : l.dropWhile p ≠ []) : (l.dropWhile p).getLast? = l.getLast? := by
  induction l with
  | nil => exact absurd rfl h
  | cons a t ih =>
    by_cases hp : p a
    · rw [List.dropWhile_cons, if_pos hp] at h ⊢
      have ht : t ≠ [] := by
        intro he
        subst he
        exact h rfl
      rw [ih h, List.getLast?_cons]
      cases hg : t.getLast? with
      | none =>
        exact absurd (List.getLast?_eq_none_iff.mp hg) ht
      | some x => rfl
    · rw [List.dropWhile_cons, if_neg hp]

/-- A list whose first and last characters are not whitespace is fixed by
`stripL`. -/
theorem stripL_eq_self (l : List Char)
    (h1 : ∀ c, l.head? = some c → wsChar c = false)
    (h2 : ∀ c, l.getLast? = some c → wsChar c = false) :
    stripL l = l := by
  cases l with
  | nil => rfl
  | cons a t =>
    unfold stripL
    rw [dropWhile_of_head_false wsChar (a :: t) a rfl (h1 a rfl)]
    cases hg : (a :: t).getLast? with
    | none => exact absurd (List.getLast?_eq_none_iff.mp hg) (by simp)
    | some x =>
      rw [dropWhile_of_head_false wsChar (a :: t).reverse x
        (by rw [List.head?_reverse, hg]) (h2 x hg), List.reverse_reverse]

theorem head?_stripL (l : List Char) (c : Char) (h : (stripL l).head? = some c) :
    wsChar c = false := by
  unfold stripL at h
  rw [List.head?_reverse] at h
  have hne : (l.dropWhile wsChar).reverse.dropWhile wsChar ≠ [] := by
    intro he
    rw [he] at h
    simp at h
  rw [getLast?_dropWhile wsChar _ hne, List.getLast?_reverse] at h
  exact head_dropWhile_false wsChar l c h

theorem getLast?_stripL (l : List Char) (c : Char)
    (h : (stripL l).getLast? = some c) : wsChar c = false := by
  unfold stripL at h
  rw [List.getLast?_reverse] at h
  exact head_dropWhile_false wsChar (l.dropWhile wsChar).reverse c h

theorem stripL_idem (l : List Char) : stripL (stripL l) = stripL l :=
  stripL_eq_self (stripL l) (head?_stripL l) (getLast?_stripL l)

theorem stripS_idem (s : String) : stripS (stripS s) = stripS s := by
  simp [stripS, stripL_idem]

theorem upperS_upperS (s : String) : upperS (upperS s) = upperS s := by
  simp only [upperS, List.map_map]
  congr 1
  exact List.map_congr_left (fun c _ => upc_upc c)

theorem upperS_stripS (s : String) : upperS (stripS s) = stripS (upperS s) := by
  simp [upperS, stripS, stripL_map_upc]

/-- Re-applying `.str.upper().str.strip()` to an already
upper-stripped value is the identity.  This is what makes the second
normalisation of the `Teacher` column (line 285 of `app.py`) a no-op on
the already-normalised aggregation keys. -/
theorem upStrip_idem (s : String) : upStrip (upStrip s) = upStrip s := by
  show stripS (upperS (stripS (upperS s))) = stripS (upperS s)
  rw [upperS_stripS (upperS s), upperS_upperS, stripS_idem]

/-- `.str.upper().str.strip()` applied to a teacher value that was built by
`strip` → `upper` → `strip` (applymap-strip at line 117 then line 119)
fixes it. -/
theorem upStrip_fix_teacher (s : String) :
    upStrip (stripS (upperS (stripS s))) = stripS (upperS (stripS s)) := by
  have h : stripS (upperS (stripS s)) = upStrip (stripS s) := rfl
  rw [h, upStrip_idem]

theorem mem_dedupF (x : String) (l : List String) : x ∈ dedupF l ↔ x ∈ l := by
  induction l with
  | nil => simp [dedupF]
  | cons a t ih =>
    simp only [dedupF, List.mem_cons, List.mem_filter, ih]
    constructor
    · rintro (rfl | ⟨h, _⟩)
      · exact .inl rfl
      · exact .inr h
    · rintro (rfl | h)
      · exact .inl rfl
      · by_cases hx : x = a
        · exact .inl hx
        · exact .inr ⟨h, by simpa using hx⟩

theorem nodup_dedupF (l : List String) : (dedupF l).Nodup := by
  induction l with
  | nil => simp [dedupF]
  | cons a t ih =>
    simp only [dedupF, List.nodup_cons]
    refine ⟨fun hmem => ?_, List.Nodup.filter _ ih⟩
    have := List.of_mem_filter hmem
    simp at this

/-! ### Lemmas about the aggregation pipeline -/

/-- Events with a teacher outside a list's teachers contribute nothing. -/
theorem filter_teacher_nil (l : List Event) (t : String)
    (h : t ∉ l.map (fun e => e.teacher)) :
    l.filter (fun e => e.teacher == t) = [] := by
  rw [List.filter_eq_nil_iff]
  intro e he het
  have : e.teacher = t := by simpa using het
  exact h (this ▸ List.mem_map_of_mem (fun x => x.teacher) he)

/-- `keyElem` on `staffHouse` is membership among the house teachers. -/
theorem keyElem_staffHouse (rows : List RawRow) (t : String) :
    keyElem (staffHouse rows) t = true
      ↔ t ∈ dedupF ((houseDF rows).map (fun e => e.teacher)) := by
  unfold keyElem staffHouse
  rw [List.any_eq_true]
  constructor
  · rintro ⟨p, hp, hpt⟩
    obtain ⟨k, hk, rfl⟩ := List.mem_map.mp hp
    have hkt : k = t := by simpa using hpt
    exact hkt ▸ hk
  · intro ht
    exact ⟨(t, pointsSumFor (houseDF rows) t), List.mem_map_of_mem _ ht, by simp⟩

/-- `lookupV` on a list keyed by distinct-by-construction map keys. -/
theorem lookupV_map_key (keys : List String) (g : String → Int) (t : String) :
    lookupV (keys.map (fun k => (k, g k))) t
      = if t ∈ keys then some (g t) else none := by
  induction keys with
  | nil => rfl
  | cons k ks ih =>
    unfold lookupV at ih ⊢
    rw [List.map_cons]
    cases hk : (k == t) with
    | true =>
      have hkt : k = t := by simpa using hk
      subst hkt
      simp [List.find?_cons, hk]
    | false =>
      have hne : t ≠ k := by
        intro h
        subst h
        simp at hk
      rw [List.find?_cons, hk, ih]
      by_cases hm : t ∈ ks
      · rw [if_pos hm, if_pos (List.mem_cons_of_mem _ hm)]
      · rw [if_neg hm, if_neg (fun hc => (List.mem_cons.mp hc).elim hne hm)]

/-- The teachers of `staff_agg` before line 285: the house-group keys
followed by the conduct-group keys not already present. -/
theorem staffAggPre_teachers (rows : List RawRow) :
    (staffAggPre rows).map (fun r => r.teacher)
      = dedupF ((houseDF rows).map (fun e => e.teacher))
        ++ (dedupF ((conductDF rows).map (fun e => e.teacher))).filter
            (fun t => !(keyElem (staffHouse rows) t)) := by
  unfold staffAggPre
  rw [List.map_append, List.map_map, List.map_map]
  congr 1
  · show (staffHouse rows).map (fun p => p.1)
      = dedupF ((houseDF rows).map (fun e => e.teacher))
    unfold staffHouse
    rw [List.map_map]
    exact List.map_id _
  · show ((staffConduct rows).filter (fun p => !(keyElem (staffHouse rows) p.1))).map
        (fun p => p.1)
      = (dedupF ((conductDF rows).map (fun e => e.teacher))).filter
          (fun t => !(keyElem (staffHouse rows) t))
    unfold staffConduct
    rw [List.filter_map, List.map_map]
    show ((dedupF ((conductDF rows).map (fun e => e.teacher))).filter
        (fun t => !(keyElem (staffHouse rows) t))).map (fun t => t) = _
    exact List.map_id _

/-- The teachers of `staff_agg` before line 285 are distinct. -/
theorem staffAggPre_teachers_nodup (rows : List RawRow) :
    ((staffAggPre rows).map (fun r => r.teacher)).Nodup := by
  rw [staffAggPre_teachers]
  refine List.Nodup.append (nodup_dedupF _) (List.Nodup.filter _ (nodup_dedupF _)) ?_
  intro t ht hf
  have := List.of_mem_filter hf
  rw [Bool.not_eq_eq_eq_not, Bool.not_true] at this
  rw [← keyElem_staffHouse rows t] at ht
  rw [ht] at this
  exact Bool.true_eq_false.mp this

/-- Every teacher of the normalised rewards is fixed by
`.str.upper().str.strip()`. -/
theorem rewards_teacher_fixed (rows : List RawRow) (e : Event)
    (he : e ∈ rewardsOf rows) : upStrip e.teacher = e.teacher := by
  obtain ⟨r, _, rfl⟩ := List.mem_map.mp he
  exact upStrip_fix_teacher r.teacher

/-- Every `staff_agg` teacher (before line 285) is fixed by
`.str.upper().str.strip()`. -/
theorem staffAggPre_teacher_fixed (rows : List RawRow) (r : SRow)
    (hr : r ∈ staffAggPre rows) : upStrip r.teacher = r.teacher := by
  have hmem : r.teacher ∈ (staffAggPre rows).map (fun x => x.teacher) :=
    List.mem_map_of_mem _ hr
  rw [staffAggPre_teachers] at hmem
  have hsome : r.teacher ∈ (houseDF rows).map (fun e => e.teacher)
      ∨ r.teacher ∈ (conductDF rows).map (fun e => e.teacher) := by
    rcases List.mem_append.mp hmem with h | h
    · exact .inl ((mem_dedupF _ _).mp h)
    · exact .inr ((mem_dedupF _ _).mp (List.mem_of_mem_filter h))
  have hev : ∃ e ∈ rewardsOf rows, e.teacher = r.teacher := by
    rcases hsome with h | h
    · obtain ⟨e, he, het⟩ := List.mem_map.mp h
      exact ⟨e, List.mem_of_mem_filter he, het⟩
    · obtain ⟨e, he, het⟩ := List.mem_map.mp h
      exact ⟨e, List.mem_of_mem_filter he, het⟩
  obtain ⟨e, he, het⟩ := hev
  rw [← het]
  exact rewards_teacher_fixed rows e he

/-- The `Teacher` re-normalisation of line 285 is the identity: `staff_agg`
teachers are already upper-stripped. -/
theorem staffAgg_eq_pre (rows : List RawRow) : staffAgg rows = staffAggPre rows := by
  unfold staffAgg
  have : ∀ r ∈ staffAggPre rows,
      (fun x => { x with teacher := upStrip x.teacher } : SRow → SRow) r = id r := by
    intro r hr
    simp only [id]
    rw [staffAggPre_teacher_fixed rows r hr]
  rw [List.map_congr_left this, List.map_id]

/-- The `staff_agg` teachers are distinct. -/
theorem staffAgg_teachers_nodup (rows : List RawRow) :
    ((staffAgg rows).map (fun r => r.teacher)).Nodup := by
  rw [staffAgg_eq_pre]
  exact staffAggPre_teachers_nodup rows

/-- The house and conduct measures attached to each `staff_agg` row are
the house points-sum and the conduct event count of that row's teacher. -/
theorem staffAgg_values (rows : List RawRow) (r : SRow) (hr : r ∈ staffAgg rows) :
    r.house = pointsSumFor (houseDF rows) r.teacher
      ∧ r.conduct = eventCountFor (conductDF rows) r.teacher := by
  rw [staffAgg_eq_pre] at hr
  unfold staffAggPre at hr
  rcases List.mem_append.mp hr with h | h
  · obtain ⟨p, hp, rfl⟩ := List.mem_map.mp h
    obtain ⟨k, hk, rfl⟩ := List.mem_map.mp hp
    refine ⟨rfl, ?_⟩
    show (lookupV (staffConduct rows) k).getD 0 = eventCountFor (conductDF rows) k
    unfold staffConduct
    rw [lookupV_map_key]
    by_cases hm : k ∈ dedupF ((conductDF rows).map (fun e => e.teacher))
    · rw [if_pos hm]
      rfl
    · rw [if_neg hm]
      have hnm : k ∉ (conductDF rows).map (fun e => e.teacher) :=
        fun hc => hm ((mem_dedupF _ _).mpr hc)
      unfold eventCountFor
      rw [filter_teacher_nil _ _ hnm]
      rfl
  · obtain ⟨p, hp, rfl⟩ := List.mem_map.mp h
    have hpc : p ∈ staffConduct rows := List.mem_of_mem_filter hp
    have hkey : keyElem (staffHouse rows) p.1 ≠ true := by
      have := List.of_mem_filter hp
      intro hc
      rw [hc] at this
      simp at this
    constructor
    · show (0 : Int) = pointsSumFor (houseDF rows) p.1
      have hnm : p.1 ∉ (houseDF rows).map (fun e => e.teacher) := by
        intro hc
        exact hkey ((keyElem_staffHouse rows p.1).mpr ((mem_dedupF _ _).mpr hc))
      unfold pointsSumFor
      rw [filter_teacher_nil _ _ hnm]
      rfl
    · show p.2 = eventCountFor (conductDF rows) p.1
      unfold staffConduct at hpc
      obtain ⟨k, _, rfl⟩ := List.mem_map.mp hpc
      rfl

/-! ### Helper lemmas for the numeric parser and the house-code extraction -/

theorem takeWhile_of_all (p : Char → Bool) (l : List Char) (h : l.all p = true) :
    l.takeWhile p = l := by
  induction l with
  | nil => rfl
  | cons a t ih =>
    rw [List.all_cons, Bool.and_eq_true] at h
    rw [List.takeWhile_cons, if_pos h.1, ih h.2]

theorem dropWhile_of_all (p : Char → Bool) (l : List Char) (h : l.all p = true) :
    l.dropWhile p = [] := by
  induction l with
  | nil => rfl
  | cons a t ih =>
    rw [List.all_cons, Bool.and_eq_true] at h
    rw [List.dropWhile_cons, if_pos h.1, ih h.2]

theorem find?_map_upc (l : List Char) :
    (l.map upc).find? isAsciiAlpha = (l.find? isAsciiAlpha).map upc := by
  induction l with
  | nil => rfl
  | cons a t ih =>
    rw [List.map_cons]
    cases ha : isAsciiAlpha a with
    | true => simp [List.find?_cons, isA_upc, ha]
    | false => simp [List.find?_cons, isA_upc, ha, ih]

/-! ### Claim theorems -/

/-- Claim C4 counterexample: the event `c4Row` has reward-type text
`"Reward"`, which contains the substring `"reward"` case-insensitively, so
the claim places it in the house subset; the program's house filter only
looks for `"house"` and leaves the house subset empty. -/
theorem c4_counterexample :
    claimHousePred (normalizeRow c4Row) = true ∧ houseDF [c4Row] = [] := by
  constructor
  · decide
  · decide

/-- Claim C4 (amended): an event is in the house subset iff it is a
normalised event of the file and its reward-type text contains the single
substring `"house"` case-insensitively, and in the conduct subset iff that
text contains `"conduct"`; the keywords `"reward"`, `"behaviour"` and
`"behavior"` play no role, and the `Category` column is not consulted. -/
theorem c4_amended (rows : List RawRow) (e : Event) :
    (e ∈ houseDF rows ↔ e ∈ rewardsOf rows ∧ containsCI e.reward "house" = true) ∧
    (e ∈ conductDF rows ↔ e ∈ rewardsOf rows ∧ containsCI e.reward "conduct" = true) := by
  unfold houseDF conductDF isHouse isConduct
  constructor <;> exact List.mem_filter

/-- Claim C5 counterexample: a file whose single event has reward text
`"Misc"` (no classification keyword) and positive points `5`.  The claim
says the sign fallback places it in the house subset; the program has no
fallback, so both subsets are empty and the event is in neither. -/
theorem c5_counterexample :
    rewardsOf [c5Row] ≠ [] ∧
    (rewardsOf [c5Row]).all (fun e => decide (0 < e.points)) = true ∧
    houseDF [c5Row] = [] ∧ conductDF [c5Row] = [] := by
  refine ⟨by decide, by decide, by decide, by decide⟩

/-- Claim C5 (amended): classification uses the keyword rule only — there
is no sign-of-points fallback.  An event whose reward text contains
neither `"house"` nor `"conduct"` belongs to neither subset, whatever the
sign of its points, so the two subsets need not cover the file. -/
theorem c5_amended (rows : List RawRow) (e : Event) (_he : e ∈ rewardsOf rows)
    (h1 : containsCI e.reward "house" = false)
    (h2 : containsCI e.reward "conduct" = false) :
    e ∉ houseDF rows ∧ e ∉ conductDF rows := by
  constructor
  · intro hc
    have := (List.mem_filter.mp hc).2
    unfold isHouse at this
    rw [h1] at this
    exact Bool.false_ne_true this
  · intro hc
    have := (List.mem_filter.mp hc).2
    unfold isConduct at this
    rw [h2] at this
    exact Bool.false_ne_true this

/-- Claim C5 witness: the amended statement applied to the concrete
no-keyword event. -/
theorem c5_amended_witness :
    normalizeRow c5Row ∈ rewardsOf [c5Row] ∧
    normalizeRow c5Row ∉ houseDF [c5Row] ∧ normalizeRow c5Row ∉ conductDF [c5Row] := by
  refine ⟨by decide, ?_⟩
  exact c5_amended [c5Row] (normalizeRow c5Row) (by decide) (by decide) (by decide)

/-- Claim C6: the normalised `Points` value is always an integer — an
optionally signed digit string parses to its exact signed value, and a
string the numeric parser rejects (pandas `NaN`) becomes `0`, never a
missing-value marker. -/
theorem c6_points_integer (s : String) :
    (∀ v, intLitVal s = some v → normPoints s = v) ∧
    (parseNumTrunc (stripS s).data = none → normPoints s = 0) := by
  constructor
  · intro v hv
    unfold intLitVal at hv
    by_cases hc : (!((signSplit (stripS s).data).2).isEmpty
        && ((signSplit (stripS s).data).2).all Char.isDigit) = true
    · rw [if_pos hc] at hv
      rw [Bool.and_eq_true] at hc
      obtain ⟨hne, hdig⟩ := hc
      unfold normPoints parseNumTrunc
      have htake : ((signSplit (stripS s).data).2).takeWhile Char.isDigit
          = (signSplit (stripS s).data).2 := takeWhile_of_all _ _ hdig
      have hok : numOk (signSplit (stripS s).data).2 = true := by
        unfold numOk
        rw [dropWhile_of_all _ _ hdig]
        rw [htake]
        exact hne
      rw [if_pos hok, htake, Option.getD_some]
      exact Option.some.inj hv
    · rw [if_neg hc] at hv
      exact absurd hv (Option.noConfusion)
  · intro h
    unfold normPoints
    rw [h]
    rfl

/-- Claim C6 witness: `"-12"` parses to `-12` and `"abc"` coerces to `0`. -/
theorem c6_points_integer_witness :
    normPoints "-12" = -12 ∧ normPoints "abc" = 0 := by
  constructor
  · exact (c6_points_integer "-12").1 (-12) (by decide)
  · exact (c6_points_integer "abc").2 (by decide)

/-- Claim C7 counterexample: the raw house text `"green"` has house code
`'G'`, which is not in the lookup, and the program passes the raw stripped
text through unchanged as `"green"` — not uppercased to `"GREEN"` as the
claim states. -/
theorem c7_counterexample :
    houseCodeOf (stripS (stripS "green")) = some 'G' ∧
    houseLookup 'G' = none ∧
    normHouse "green" = "green" ∧
    normHouse "green" ≠ claimHouseFallback "green" := by
  refine ⟨by decide, by decide, by decide, by decide⟩

/-- Claim C7 (amended): the normalised `House` value is the full house
name whenever the extracted single-letter code is a key of the lookup;
otherwise it is the raw stripped house text unchanged — original case
preserved (not uppercased), and empty when the raw text is empty. -/
theorem c7_amended (s : String) :
    (∀ c n, houseCodeOf (stripS (stripS s)) = some c → houseLookup c = some n →
      normHouse s = n) ∧
    (∀ c, houseCodeOf (stripS (stripS s)) = some c → houseLookup c = none →
      normHouse s = stripS (stripS s)) ∧
    (houseCodeOf (stripS (stripS s)) = none → normHouse s = stripS (stripS s)) := by
  refine ⟨?_, ?_, ?_⟩
  · intro c n hc hn
    unfold normHouse
    simp only [hc, hn, Option.getD_some]
  · intro c hc hn
    unfold normHouse
    simp only [hc, hn, Option.getD_none]
  · intro hc
    unfold normHouse
    simp only [hc]

/-- Claim C7 witness: `"b"` maps to `"Brunel"`, `"green"` and `""` pass
through unchanged. -/
theorem c7_amended_witness :
    normHouse "b" = "Brunel" ∧ normHouse "green" = "green" ∧ normHouse "" = "" := by
  refine ⟨?_, ?_, ?_⟩
  · exact (c7_amended "b").1 'B' "Brunel" (by decide) (by decide)
  · exact (c7_amended "green").2.1 'G' (by decide) (by decide)
  · exact (c7_amended "").2.2 (by decide)

/-- Claim C10: house-code mapping keys on the first alphabetic character
of the raw (stripped) house text, uppercased: whenever that character
uppercases to `B`, `L`, `D` or `W` — whatever its case and whatever text
follows — the normalised house is the corresponding full name. -/
theorem c10_house_code (s : String) (c : Char)
    (hf : (stripS (stripS s)).data.find? isAsciiAlpha = some c) :
    (upc c = 'B' → normHouse s = "Brunel") ∧
    (upc c = 'L' → normHouse s = "Liddell") ∧
    (upc c = 'D' → normHouse s = "Dickens") ∧
    (upc c = 'W' → normHouse s = "Wilberforce") := by
  have hcode : houseCodeOf (stripS (stripS s)) = some (upc c) := by
    unfold houseCodeOf
    rw [find?_map_upc, hf]
    rfl
  refine ⟨?_, ?_, ?_, ?_⟩ <;> intro hc <;> unfold normHouse <;>
    simp only [hcode, hc] <;> rfl

/-- Claim C10 witness: `" 1brunel "` (first alphabetic character `b`)
normalises to `"Brunel"`. -/
theorem c10_house_code_witness :
    (stripS (stripS " 1brunel ")).data.find? isAsciiAlpha = some 'b' ∧
    normHouse " 1brunel " = "Brunel" := by
  refine ⟨by decide, ?_⟩
  exact (c10_house_code " 1brunel " 'b' (by decide)).1 (by decide)

/-- Evaluation of the tracker statistics for the one-row log `c8Log`:
teacher `AB` has total 10 over one week, average 10, status `"Negative"`. -/
theorem c8_statFor_eval :
    statFor c8Log "AB"
      = { teacher := "AB", total := 10, weeks := 1, avg := 10,
          status := "Negative" } := by
  have havg : avgFor c8Log "AB" = 10 := by
    unfold avgFor
    have h1 : (((logGroup c8Log "AB").map (fun r => r.hp)).sum)
        / (((logGroup c8Log "AB").length : ℚ)) = 10 := by
      show ((10:ℚ) + 0) / ((1:ℕ) : ℚ) = 10
      norm_num
    rw [h1]
    unfold round2 roundHalfEven
    norm_num
  have htot : ((logGroup c8Log "AB").map (fun r => r.hp)).sum = (10:ℚ) := by
    show (10:ℚ) + 0 = 10
    exact add_zero _
  unfold statFor
  rw [havg, htot]
  rw [if_neg (by norm_num [DEFAULT_WEEKLY_TARGET])]
  rfl

/-- Claim C8 counterexample: with the log `c8Log` the only staff row has
average 10, which meets a configured threshold of 1 (the sidebar accepts
any value from 1 up), yet the tracker reports `"Negative"`: the
recomputation compares against the hard-coded default 15, not the
configured threshold. -/
theorem c8_counterexample :
    staffStats c8Log
      = [{ teacher := "AB", total := 10, weeks := 1, avg := 10,
           status := "Negative" }] ∧
    (1 : ℚ) ≤ (statFor c8Log "AB").avg := by
  have hs : staffStats c8Log = [statFor c8Log "AB"] := rfl
  constructor
  · rw [hs, c8_statFor_eval]
  · rw [c8_statFor_eval]
    norm_num

/-- Claim C8 (amended): a recomputed tracker row has positive contribution
status iff its rounded average house points per period is at least the
hard-coded default weekly target `15`; the sidebar-configured threshold is
not consulted by `update_cumulative_tracker`. -/
theorem c8_amended (log : List LogRow) (r : StatRow) (hr : r ∈ staffStats log) :
    r.status = "Positive" ↔ DEFAULT_WEEKLY_TARGET ≤ r.avg := by
  unfold staffStats at hr
  obtain ⟨t, _, rfl⟩ := List.mem_map.mp hr
  unfold statFor
  dsimp only
  split
  · rename_i h
    exact iff_of_true rfl h
  · rename_i h
    exact iff_of_false (by decide) h

/-- Claim C8 witness: the amended statement applied to the one-row log. -/
theorem c8_amended_witness :
    statFor c8Log "AB" ∈ staffStats c8Log ∧
    ((statFor c8Log "AB").status = "Positive"
      ↔ DEFAULT_WEEKLY_TARGET ≤ (statFor c8Log "AB").avg) := by
  have hs : staffStats c8Log = [statFor c8Log "AB"] := rfl
  have hmem : statFor c8Log "AB" ∈ staffStats c8Log := by
    rw [hs]
    exact List.mem_cons_self _ _
  exact ⟨hmem, c8_amended c8Log (statFor c8Log "AB") hmem⟩

/-- Claim C9 counterexample: thirteen incoming columns, none with an
expected name.  The claim says the positional strategy applies only when
the column count exactly matches the expected count (12); the program
applies it whenever the count is at least 12 (line 106 uses `>=`). -/
theorem c9_counterexample :
    chooseHeaderStrategy c9Cols = HeaderStrategy.positional ∧
    EXPECTED_REWARDS_COLS.all (fun c => c9Cols.contains c) = false ∧
    c9Cols.length ≠ EXPECTED_REWARDS_COLS.length := by
  refine ⟨by decide, by decide, by decide⟩

/-- Claim C9 (amended): when the incoming header names are not a superset
of the expected names, the positional strategy applies exactly when the
incoming column count is at least the expected count (not only on exact
equality); only with fewer columns are the missing expected fields
synthesized as empty columns. -/
theorem c9_amended (cols : List String)
    (h : EXPECTED_REWARDS_COLS.all (fun c => cols.contains c) = false) :
    (chooseHeaderStrategy cols = HeaderStrategy.positional
      ↔ EXPECTED_REWARDS_COLS.length ≤ cols.length) ∧
    (chooseHeaderStrategy cols = HeaderStrategy.pad
      ↔ cols.length < EXPECTED_REWARDS_COLS.length) ∧
    (chooseHeaderStrategy cols = HeaderStrategy.pad →
      ∀ c ∈ EXPECTED_REWARDS_COLS, cols.contains c = false →
        (c, ColSource.empty) ∈ colPlan cols) := by
  have hstrat : chooseHeaderStrategy cols
      = if EXPECTED_REWARDS_COLS.length ≤ cols.length then HeaderStrategy.positional
        else HeaderStrategy.pad := by
    unfold chooseHeaderStrategy
    rw [h]
    simp
  by_cases hl : EXPECTED_REWARDS_COLS.length ≤ cols.length
  · rw [hstrat, if_pos hl]
    refine ⟨iff_of_true rfl hl, iff_of_false (by decide) (by omega), ?_⟩
    intro hpad
    exact absurd hpad (by decide)
  · rw [hstrat, if_neg hl]
    refine ⟨iff_of_false (by decide) hl, iff_of_true rfl (by omega), ?_⟩
    intro _ c hc hnc
    unfold colPlan
    rw [hstrat, if_neg hl]
    have : (fun c => if cols.contains c then (c, ColSource.named (cols.indexOf c))
        else (c, ColSource.empty)) c = (c, ColSource.empty) := by
      show (if cols.contains c = true then (c, ColSource.named (cols.indexOf c))
        else (c, ColSource.empty)) = (c, ColSource.empty)
      rw [hnc]
      simp
    exact this ▸ List.mem_map_of_mem _ hc

/-- Claim C9 witness: a single unrecognised column triggers the padding
strategy and the missing `House` column is synthesized as empty. -/
theorem c9_amended_witness :
    EXPECTED_REWARDS_COLS.all (fun c => ["OnlyOne"].contains c) = false ∧
    chooseHeaderStrategy ["OnlyOne"] = HeaderStrategy.pad ∧
    ("House", ColSource.empty) ∈ colPlan ["OnlyOne"] := by
  have h := c9_amended ["OnlyOne"] (by decide)
  refine ⟨by decide, h.2.1.mpr (by decide), ?_⟩
  exact h.2.2 (h.2.1.mpr (by decide)) "House" (by decide) (by decide)

/-- The roster key list is duplicate-free. -/
theorem rosterKeys_nodup (roster : List String) : (rosterKeys roster).Nodup := by
  unfold rosterKeys
  exact nodup_dedupF _

/-! ### Claims C1–C3: the merge block never completes

The aggregation stage (lines 259–285) runs and `staff_agg` is computed,
but the master/merge block (lines 291–303) raises an uncaught `KeyError`
on both of its branches, so the program aborts before any per-staff
summary exists. -/

/-- Claim C1 (code bug): no uploaded file ever yields a per-staff summary
whose house measures could be summed — the computation of `staff_full`
fails with a `KeyError` on every input: with a non-empty roster, line 300
selects the column `Dep` that line 298 just renamed to `Dept`; with an
empty roster, the line-303 merge joins on a `Teacher` column the
`Initials`-keyed master of line 294 does not have. -/
theorem c1_no_summary (roster : List String) (rows : List RawRow) :
    ∃ msg, staffFullE roster rows = .error msg := by
  unfold staffFullE
  by_cases h : rosterKeys roster = []
  · refine ⟨"KeyError: Teacher", ?_⟩
    unfold masterFrame
    rw [if_pos h]
    rfl
  · refine ⟨"KeyError: label not in index", ?_⟩
    unfold masterFrame
    rw [if_neg h]
    rfl

/-- Claim C2 (code bug): for every non-empty staff roster the run aborts
with a `KeyError` at line 300 — the block selects `Dep` after renaming it
to `Dept` — so no roster identifier ever appears as a `Teacher` row of a
per-staff summary. -/
theorem c2_roster_run_crashes (roster : List String) (rows : List RawRow)
    (h : rosterKeys roster ≠ []) :
    staffFullE roster rows = .error "KeyError: label not in index" := by
  unfold staffFullE masterFrame
  rw [if_neg h]
  rfl

/-- Claim C2 witness: the crash evaluated at the concrete roster `["AA"]`
and the one-event upload. -/
theorem c2_roster_run_crashes_witness :
    rosterKeys exRoster ≠ [] ∧
    staffFullE exRoster exRows = .error "KeyError: label not in index" :=
  ⟨by decide, c2_roster_run_crashes exRoster exRows (by decide)⟩

/-- Claim C3 (code bug): the roster merge preserves nothing, because it
never completes: with an empty roster the line-303 merge raises
`KeyError: Teacher` (line 294 keys the master by `Initials`), and with a
non-empty roster the run aborts at line 300 before the merge — so an
event-only teacher never appears in any summary, and neither does anyone
else. -/
theorem c3_merge_never_completes (roster : List String) (rows : List RawRow) :
    (rosterKeys roster = [] →
      staffFullE roster rows = .error "KeyError: Teacher") ∧
    (rosterKeys roster ≠ [] →
      staffFullE roster rows = .error "KeyError: label not in index") := by
  constructor
  · intro h
    unfold staffFullE masterFrame
    rw [if_pos h]
    rfl
  · intro h
    unfold staffFullE masterFrame
    rw [if_neg h]
    rfl

/-- Claim C3 witness: both branches evaluated on the one-event upload
whose house event carries the unrostered teacher `XX`. -/
theorem c3_merge_never_completes_witness :
    staffFullE ([] : List String) exRows = .error "KeyError: Teacher" ∧
    staffFullE exRoster exRows = .error "KeyError: label not in index" :=
  ⟨(c3_merge_never_completes [] exRows).1 (by decide),
   (c3_merge_never_completes exRoster exRows).2 (by decide)⟩
